import Mathlib

/-!
# Verification of the `safe-typed-html` element builder and serializer

Shallow embedding of `src/elements.tsx`: the camelCase→kebab-case name
transformer, the two escaping routines, the content flattener, the node
model (`TextNode` / `RenderNode`), attribute serialization, and the
`createElement` entry point.  JavaScript strings are modelled as Lean
`String`; attribute objects as insertion-ordered association lists; the
one mutation in the pipeline (deletion of the `dangerousInnerHtml` key)
is modelled by explicit state passing: `createElement` returns both the
constructed node and the attribute map as it stands after the call.
-/

namespace SafeTypedHtml

/-- `isUpper` from the source: a character counts as uppercase exactly when
its code point lies between `A` and `Z` inclusive. -/
def isUpperChar (c : Char) : Bool :=
  'A' ≤ c && c ≤ 'Z'

/-- `camelCased[i].toLowerCase()` for the single character the algorithm
lowercases (always an ASCII capital when reached). -/
def jsToLowerChar (c : Char) : Char :=
  c.toLower

/-- `toKebabCase` from the source, character by character: at index `i`,
`prevUpper` is `true` at `i = 0` and otherwise the uppercase test at `i-1`;
`nextUpper` is `true` at the last index and otherwise the uppercase test at
`i+1`; a hyphen plus the lowercased character is emitted when
`(!prevUpper && curUpper) || (curUpper && !nextUpper)`, and the character is
copied unchanged otherwise. -/
def toKebabCase (camelCased : String) : String :=
  let cs := camelCased.data
  let n := cs.length
  String.mk (((List.range n).map (fun i =>
    let prevUpperCased := if 0 < i then isUpperChar (cs.getD (i - 1) ' ') else true
    let currentUpperCased := isUpperChar (cs.getD i ' ')
    let nextUpperCased := if i < n - 1 then isUpperChar (cs.getD (i + 1) ' ') else true
    if (!prevUpperCased && currentUpperCased) || (currentUpperCased && !nextUpperCased) then
      ['-', jsToLowerChar (cs.getD i ' ')]
    else
      [cs.getD i ' '])).flatten)

/-- One step of the single-pass attribute-value regex
over ampersand, double quote and U+00A0: the replacement chosen for a matched character,
with every other character copied through. -/
def escAttrChar (c : Char) : List Char :=
  if c = '&' then "&amp;".data
  else if c = '"' then "&quot;".data
  else if c = '\u00A0' then "&nbsp;".data
  else [c]

/-- `escapeAttrNodeValue` scanning left to right: each matched character is
replaced exactly once and the scan continues after it (replacement output is
never re-scanned), mirroring a global regex with alternation. -/
def escapeAttrNodeValueList : List Char → List Char
  | [] => []
  | c :: cs =>
    (if c = '&' then "&amp;".data
     else if c = '"' then "&quot;".data
     else if c = '\u00A0' then "&nbsp;".data
     else [c]) ++ escapeAttrNodeValueList cs

/-- `escapeAttrNodeValue` from the source. -/
def escapeAttrNodeValue (value : String) : String :=
  String.mk (escapeAttrNodeValueList value.data)

/-- `String.prototype.replace` with a global single-character pattern: every
occurrence of `c` is replaced by `r`, in one pass over the input. -/
def replaceAllChar (c : Char) (r : List Char) : List Char → List Char
  | [] => []
  | x :: xs => (if x = c then r else [x]) ++ replaceAllChar c r xs

/-- `s.replace(/c/g, r)` on strings. -/
def jsReplaceAll (c : Char) (r : String) (s : String) : String :=
  String.mk (replaceAllChar c r.data s.data)

/-- The four sequential text-content passes from `flattenContents`:
`&` → `&amp;`, then `<` → `&lt;`, then `>` → `&gt;`, then `"` → `&quot;`. -/
def escapeTextContents (s : String) : String :=
  jsReplaceAll '"' "&quot;"
    (jsReplaceAll '>' "&gt;"
      (jsReplaceAll '<' "&lt;"
        (jsReplaceAll '&' "&amp;" s)))

/-- The ideal one-shot per-character escape the four passes are meant to
implement; used to state that the sequential passes never double-escape. -/
def escTextChar (c : Char) : List Char :=
  if c = '&' then "&amp;".data
  else if c = '<' then "&lt;".data
  else if c = '>' then "&gt;".data
  else if c = '"' then "&quot;".data
  else [c]

/-- `AttributeValue = number | string | Date | boolean`.  A `Date` is kept
abstract as the pair of its two JavaScript string conversions:
`toStringRepr` for `'' + value` and `iso` for `toISOString()`. -/
inductive AttributeValue where
  | num (n : Int)
  | str (s : String)
  | date (toStringRepr : String) (iso : String)
  | bool (b : Bool)
  deriving DecidableEq, Repr

/-- JavaScript truthiness of an `AttributeValue`: `0`, the empty string and
`false` are falsy; every `Date` object is truthy. -/
def truthy : AttributeValue → Bool
  | AttributeValue.num n => n ≠ 0
  | AttributeValue.str s => s ≠ ""
  | AttributeValue.date _ _ => true
  | AttributeValue.bool b => b

/-- `'' + value` on an `AttributeValue`. -/
def jsToString : AttributeValue → String
  | AttributeValue.num n => toString n
  | AttributeValue.str s => s
  | AttributeValue.date r _ => r
  | AttributeValue.bool b => if b then "true" else "false"

/-- `value.toString()` for the default branch of `attributeToString` (`Date`
is matched before this branch; booleans are matched by the switch). -/
def attrValueToString : AttributeValue → String
  | AttributeValue.num n => toString n
  | AttributeValue.str s => s
  | AttributeValue.date r _ => r
  | AttributeValue.bool b => if b then "true" else "false"

/-- An `Attributes` object: an insertion-ordered association list with the
keys unique, mirroring a JavaScript object literal.  `Object.keys` is the
list of first components in order. -/
abbrev Attributes : Type := List (String × AttributeValue)

/-- `attributes[name]`: the value stored under `name`, if any. -/
def lookupAttr (attributes : Attributes) (name : String) : Option AttributeValue :=
  (List.find? (fun p => p.1 == name) attributes).map Prod.snd

/-- `delete attributes[name]` on an object with unique keys. -/
def deleteAttr (attributes : Attributes) (name : String) : Attributes :=
  List.filter (fun p => p.1 != name) attributes

/-- `attributeToString(attributes)(name)` from the source: `Date` values
render as `name="iso"`; `true` renders as the bare kebab-cased name and
`false` as the empty string; every other value is stringified, coalesced to
the empty string when missing, attribute-escaped and wrapped in
`name="value"`. -/
def attributeToString (attributes : Attributes) (name : String) : String :=
  let value := lookupAttr attributes name
  let formattedName := toKebabCase name
  let makeAttribute := fun (v : String) => formattedName ++ "=\"" ++ v ++ "\""
  match value with
  | some (AttributeValue.date _ iso) => makeAttribute iso
  | some (AttributeValue.bool b) => if b then formattedName else ""
  | some v => makeAttribute (escapeAttrNodeValue (attrValueToString v))
  | none => makeAttribute (escapeAttrNodeValue "")

/-- `attributesToString`: when an attributes object is present (even an
empty or all-filtered one), a single space is prepended to the
space-joined, non-empty per-key results; `undefined` yields the empty
string. -/
def attributesToString : Option Attributes → String
  | some attributes =>
      " " ++ String.intercalate " "
        (((attributes.map Prod.fst).map (attributeToString attributes)).filter
          (fun a => a.length ≠ 0))
  | none => ""

/-- `isVoidElement` from the source: membership in the fixed list. -/
def isVoidElement (tagName : String) : Bool :=
  ["area", "base", "br", "col", "command", "embed", "hr", "img", "input",
   "keygen", "link", "meta", "param", "source", "track", "wbr"].contains tagName

mutual
/-- The node model: `RNode` covers the two classes implementing
`JSX.IRenderNode` (`TextNode` and `RenderNode`). -/
inductive RNode : Type where
  | textNode (contents : String)
  | renderNode (tagName : String) (attributes : Option Attributes)
      (children : List Content)

/-- `ContentType = JSX.IRenderNode | string`, the element type of
`children`. -/
inductive Content : Type where
  | node (n : RNode)
  | str (s : String)
end

mutual
/-- `RenderNode.toString` / `TextNode.toString`: a text node yields its
contents verbatim; an element self-closes when it is a void tag with an
empty children list and otherwise emits the children between an opening and
a closing tag. -/
def RNode.render : RNode → String
  | RNode.textNode contents => contents
  | RNode.renderNode tagName attrs children =>
      if isVoidElement tagName && children.length == 0 then
        "<" ++ tagName ++ attributesToString attrs ++ ">"
      else
        "<" ++ tagName ++ attributesToString attrs ++ ">" ++ renderChildren children
          ++ "</" ++ tagName ++ ">"

/-- `children.map(child => ...).join('')` from `RenderNode.toString`:
strings pass through, nodes render themselves. -/
def renderChildren : List Content → String
  | [] => ""
  | Content.str s :: rest => s ++ renderChildren rest
  | Content.node n :: rest => RNode.render n ++ renderChildren rest
end

/-- The tag name of an element node, if the node is one. -/
def RNode.getTag : RNode → Option String
  | RNode.textNode _ => none
  | RNode.renderNode tagName _ _ => some tagName

/-- The attributes held by an element node, if the node is one. -/
def RNode.getAttributes : RNode → Option (Option Attributes)
  | RNode.textNode _ => none
  | RNode.renderNode _ attrs _ => some attrs

/-- The children held by an element node, if the node is one. -/
def RNode.getChildren : RNode → Option (List Content)
  | RNode.textNode _ => none
  | RNode.renderNode _ _ children => some children

/-- One raw child argument of `createElement`:
`ContentType | Array<ContentType>`, with arrays nesting arbitrarily (the
recursion in `flattenContents` handles any depth).  A non-node, non-array
value is carried as its JavaScript stringification `'' + value` (for a
plain string this is the string itself). -/
inductive RawContent : Type where
  | node (n : RNode)
  | arr (xs : List RawContent)
  | prim (toStr : String)

mutual
/-- `flattenContents` from the source: each element of the argument list is
expanded by `flattenOne` and the results are concatenated in order. -/
def flattenContents : List RawContent → List Content
  | [] => []
  | content :: rest => flattenOne content ++ flattenContents rest

/-- The per-element policy of the `flattenContents` loop: nodes pass through
by identity, arrays are recursively spliced in place, and any other value is
stringified and text-escaped into a plain string. -/
def flattenOne : RawContent → List Content
  | RawContent.node n => [Content.node n]
  | RawContent.arr xs => flattenContents xs
  | RawContent.prim s => [Content.str (escapeTextContents s)]
end

/-- `CustomElementHandler`: receives the attributes and the flattened
contents and returns a render-capable node. -/
abbrev CustomElementHandler : Type :=
  Option Attributes → List Content → RNode

/-- The truthiness test `attributes && attributes['dangerousInnerHtml']`
guarding the raw-markup escape hatch. -/
def hatchActive (attributes : Option Attributes) : Bool :=
  match attributes with
  | none => false
  | some attrs =>
      match lookupAttr attrs "dangerousInnerHtml" with
      | none => false
      | some v => truthy v

/-- `createElement` from the source.  The mutation of the caller's
`attributes` object is modelled by explicit state passing: the result is the
constructed node together with the attributes object as it stands after the
call (the reserved key deleted exactly when the escape hatch fired). -/
def createElement (name : String ⊕ CustomElementHandler)
    (attributes : Option Attributes) (rawContents : List RawContent) :
    RNode × Option Attributes :=
  let step : List RawContent × Option Attributes :=
    match attributes with
    | none => (rawContents, none)
    | some attrs =>
        match lookupAttr attrs "dangerousInnerHtml" with
        | none => (rawContents, some attrs)
        | some v =>
            if truthy v then
              ([RawContent.node (RNode.textNode (jsToString v))],
               some (deleteAttr attrs "dangerousInnerHtml"))
            else
              (rawContents, some attrs)
  match name with
  | Sum.inl tagStr =>
      (RNode.renderNode (toKebabCase tagStr) step.2 (flattenContents step.1), step.2)
  | Sum.inr handler =>
      (handler step.2 (flattenContents step.1), step.2)

/-! ## Helper lemmas -/

/-- A single-character global replace distributes over concatenation:
occurrences are matched independently, never across a boundary. -/
theorem replaceAllChar_append (c : Char) (r xs ys : List Char) :
    replaceAllChar c r (xs ++ ys) = replaceAllChar c r xs ++ replaceAllChar c r ys := by
  induction xs with
  | nil => rfl
  | cons x xs ih => simp [replaceAllChar, ih]

/-- The four sequential text-escape passes compute exactly the one-shot
per-character substitution: the `&` pass running first means the ampersands
introduced by the `<`, `>` and `"` passes are never revisited. -/
theorem escapeText_passes_eq (xs : List Char) :
    replaceAllChar '"' "&quot;".data (replaceAllChar '>' "&gt;".data
      (replaceAllChar '<' "&lt;".data (replaceAllChar '&' "&amp;".data xs)))
      = (xs.map escTextChar).flatten := by
  induction xs with
  | nil => rfl
  | cons x xs ih =>
    have hhead : replaceAllChar '&' "&amp;".data (x :: xs)
        = (if x = '&' then "&amp;".data else [x]) ++ replaceAllChar '&' "&amp;".data xs := rfl
    rw [hhead, replaceAllChar_append, replaceAllChar_append, replaceAllChar_append,
      List.map_cons, List.flatten_cons, ih]
    congr 1
    by_cases h1 : x = '&'
    · subst h1; decide
    by_cases h2 : x = '<'
    · subst h2; decide
    by_cases h3 : x = '>'
    · subst h3; decide
    by_cases h4 : x = '"'
    · subst h4; decide
    simp [replaceAllChar, escTextChar, h1, h2, h3, h4]

/-- `escapeTextContents` as a one-shot character map. -/
theorem escapeTextContents_eq (s : String) :
    escapeTextContents s = String.mk ((s.data.map escTextChar).flatten) :=
  congrArg String.mk (escapeText_passes_eq s.data)

/-- The single-pass attribute escape as a one-shot character map: every
matched character is replaced exactly once and replacement output is never
re-scanned. -/
theorem escapeAttrNodeValueList_eq (xs : List Char) :
    escapeAttrNodeValueList xs = (xs.map escAttrChar).flatten := by
  induction xs with
  | nil => rfl
  | cons x xs ih => simp [escapeAttrNodeValueList, escAttrChar, ih]

/-- Deleting one key leaves the value stored under every other key
unchanged. -/
theorem lookupAttr_deleteAttr (attrs : Attributes) (key k : String) (hk : k ≠ key) :
    lookupAttr (deleteAttr attrs key) k = lookupAttr attrs k := by
  induction attrs with
  | nil => rfl
  | cons p rest ih =>
    by_cases hp : p.1 = key
    · have h1 : (p.1 != key) = false := by simp [bne, hp]
      have h2 : (p.1 == k) = false := by
        rw [hp, beq_eq_false_iff_ne]
        exact fun h => hk h.symm
      simpa [lookupAttr, deleteAttr, List.filter_cons, h1,
        List.find?_cons_of_neg, h2] using ih
    · have h1 : (p.1 != key) = true := by simp [bne, hp]
      by_cases hpk : p.1 = k
      · have h2 : (p.1 == k) = true := by simp [hpk]
        simp [lookupAttr, deleteAttr, List.filter_cons, h1, List.find?_cons_of_pos, h2]
      · have h2 : (p.1 == k) = false := by simp [hpk]
        simpa [lookupAttr, deleteAttr, List.filter_cons, h1,
          List.find?_cons_of_neg, h2] using ih

/-- The deleted key no longer occurs among the keys of the map, so it can
never be serialized by `attributesToString`. -/
theorem deleteAttr_key_gone (attrs : Attributes) (key : String) :
    key ∉ (deleteAttr attrs key).map Prod.fst := by
  intro hmem
  obtain ⟨p, hp, hkey⟩ := List.mem_map.mp hmem
  have hne := (List.mem_filter.mp hp).2
  rw [bne_iff_ne] at hne
  exact hne hkey

/-- Flattening distributes over concatenation of the input sequence. -/
theorem flattenContents_append (xs ys : List RawContent) :
    flattenContents (xs ++ ys) = flattenContents xs ++ flattenContents ys := by
  induction xs with
  | nil => rfl
  | cons x xs ih => simp [flattenContents, ih]

/-! ## Claim theorems -/

/-- Claim C3, counterexample: the name transformer maps `"ID"` to `"ID"`,
not to `"id"` — with the boundary convention treating the positions before
index 0 and after the last index as uppercase, both letters of an
uppercase run spanning the whole string are flanked by uppercase on both
sides, so neither is hyphen-lowercased. -/
theorem C3_counterexample : toKebabCase "ID" = "ID" ∧ toKebabCase "ID" ≠ "id" := by
  constructor
  · decide
  · decide

/-- Claim C3 (amended): `toKebabCase` hyphenates and lowercases an uppercase
letter only when the boundary rule fires on at least one side with a
non-uppercase neighbour, so `toKebabCase "ID" = "ID"` (an uppercase run
flanked by the uppercase boundary convention is copied unchanged) while
`toKebabCase "dataFoo" = "data-foo"`; every `RenderNode` built from a string
name carries `toKebabCase name` as its tag name at construction time, which
is kebab-cased but not necessarily fully lowercase. -/
theorem C3_claim (name : String) (attributes : Option Attributes)
    (raw : List RawContent) :
    toKebabCase "ID" = "ID"
    ∧ toKebabCase "dataFoo" = "data-foo"
    ∧ toKebabCase "id" = "id"
    ∧ toKebabCase "dangerousInnerHtml" = "dangerous-inner-html"
    ∧ ((createElement (Sum.inl name) attributes raw).1).getTag
        = some (toKebabCase name) := by
  refine ⟨by decide, by decide, by decide, by decide, ?_⟩
  unfold createElement
  cases attributes with
  | none => rfl
  | some attrs =>
    cases hl : lookupAttr attrs "dangerousInnerHtml" with
    | none => simp [hl, RNode.getTag]
    | some v =>
      by_cases ht : truthy v
      · simp [hl, ht, RNode.getTag]
      · simp [hl, ht, RNode.getTag]

/-- Claim C6: text-content escaping runs the four replacement passes in
sequence with `&` first, so the composite equals the ideal one-shot
per-character substitution (no ampersand introduced by the `<`, `>` or `"`
passes is ever double-escaped), the four-character string sees each
character escaped, and the flattener applies exactly this escape to every
non-node, non-array content value after stringification. -/
theorem C6_claim (s : String) (rest : List RawContent) :
    escapeTextContents "&<>\"" = "&amp;&lt;&gt;&quot;"
    ∧ escapeTextContents s = String.mk ((s.data.map escTextChar).flatten)
    ∧ flattenContents (RawContent.prim s :: rest)
        = Content.str (escapeTextContents s) :: flattenContents rest := by
  refine ⟨by decide, escapeTextContents_eq s, rfl⟩

/-- Claim C7: attribute-value escaping is a single left-to-right pass that
maps `&` to `&amp;`, `"` to `&quot;` and the non-breaking space to `&nbsp;`,
replacing each matched character exactly once without re-scanning the
replacement output, and leaving every other character (including `<` and
`>`) untouched. -/
theorem C7_claim (s : String) :
    escapeAttrNodeValue s = String.mk ((s.data.map escAttrChar).flatten)
    ∧ escapeAttrNodeValue "5 & 6 \" \u00A0" = "5 &amp; 6 &quot; &nbsp;"
    ∧ escapeAttrNodeValue "&" = "&amp;"
    ∧ escapeAttrNodeValue "<>" = "<>" := by
  refine ⟨congrArg String.mk (escapeAttrNodeValueList_eq s.data), by decide, by decide,
    by decide⟩

/-- Claim C8: flattening distributes over concatenation and expands each
element in place — existing nodes pass through as the same value, nested
sequences are spliced depth-first in order, and any other value becomes a
plain text-escaped string (not a `TextNode`); a mixed nested example
flattens to the depth-first left-to-right sequence.  The output type
`List Content` contains no arrays, so the result is flat by construction,
and the function is pure. -/
theorem C8_claim (xs ys : List RawContent) (n : RNode) (s : String) :
    flattenContents (xs ++ ys) = flattenContents xs ++ flattenContents ys
    ∧ flattenContents [RawContent.node n] = [Content.node n]
    ∧ flattenContents [RawContent.arr xs] = flattenContents xs
    ∧ flattenContents [RawContent.prim s] = [Content.str (escapeTextContents s)]
    ∧ flattenContents
        [RawContent.arr [RawContent.node n, RawContent.arr [RawContent.prim s]],
         RawContent.prim "&"]
        = [Content.node n, Content.str (escapeTextContents s), Content.str "&amp;"] := by
  have hamp : escapeTextContents "&" = "&amp;" := by decide
  refine ⟨flattenContents_append xs ys, rfl, ?_, rfl, ?_⟩
  · simp [flattenContents, flattenOne]
  · simp [flattenContents, flattenOne, hamp]


/-- Claim C2, counterexample: building the void tag `img` with a (spurious)
child renders `<img>x</img>` — the child is emitted and a closing tag
appears, because the serializer self-closes only when the children list is
empty, so the claimed output `<img>` is wrong. -/
theorem C2_counterexample :
    (createElement (Sum.inl "img") none [RawContent.prim "x"]).1.render = "<img>x</img>"
    ∧ (createElement (Sum.inl "img") none [RawContent.prim "x"]).1.render ≠ "<img>" := by
  constructor
  · decide
  · decide

/-- Claim C2 (amended): a `RenderNode` whose tag is in the void-element set
renders in the self-closing form `<tag attrs>` exactly when its children
list is empty (in particular when an empty children sequence was explicitly
supplied); when children are present they are rendered and a closing tag is
emitted — void status does not discard supplied children. -/
theorem C2_claim (tag : String) (attrs : Option Attributes) (children : List Content)
    (hvoid : isVoidElement tag = true) :
    (children = [] ->
      RNode.render (RNode.renderNode tag attrs children)
        = "<" ++ tag ++ attributesToString attrs ++ ">")
    /\ (children ≠ [] ->
      RNode.render (RNode.renderNode tag attrs children)
        = "<" ++ tag ++ attributesToString attrs ++ ">" ++ renderChildren children
          ++ "</" ++ tag ++ ">") := by
  constructor
  · intro h
    subst h
    simp [RNode.render, hvoid]
  · intro h
    have hlen : (children.length == 0) = false := by
      cases children with
      | nil => exact absurd rfl h
      | cons c cs => rfl
    simp [RNode.render, hvoid, hlen]

/-- Claim C2, witness: `img` with an explicitly supplied empty children
sequence self-closes. -/
theorem C2_witness :
    RNode.render (RNode.renderNode "img" (some [("src", AttributeValue.str "x.png")]) [])
      = "<img" ++ attributesToString (some [("src", AttributeValue.str "x.png")]) ++ ">" :=
  (C2_claim "img" (some [("src", AttributeValue.str "x.png")]) [] (by decide)).1 rfl

/-- Claim C4, counterexample: `build("input", {disabled: false})` renders
`<input >` — the false boolean is filtered out of the attribute list, but
the single space prepended for a present attributes object remains, so the
output is not exactly `<input>`. -/
theorem C4_counterexample :
    (createElement (Sum.inl "input") (some [("disabled", AttributeValue.bool false)]) []).1.render
      = "<input >"
    ∧ (createElement (Sum.inl "input") (some [("disabled", AttributeValue.bool false)]) []).1.render
      ≠ "<input>" := by
  constructor
  · decide
  · decide

/-- Claim C4 (amended): a boolean attribute serializes to the bare
kebab-cased name when true and to the empty string when false, and false
results are filtered out before the space-join; but when an attributes
object is present the serializer always prepends one space, so
`build("input", {disabled: true})` renders `<input disabled>` while
`build("input", {disabled: false})` renders `<input >` with a trailing
space inside the tag, not `<input>`. -/
theorem C4_claim (attrs : Attributes) (name : String) (b : Bool)
    (h : lookupAttr attrs name = some (AttributeValue.bool b)) :
    attributeToString attrs name = (if b then toKebabCase name else "")
    ∧ (createElement (Sum.inl "input")
          (some [("disabled", AttributeValue.bool true)]) []).1.render
        = "<input disabled>"
    ∧ (createElement (Sum.inl "input")
          (some [("disabled", AttributeValue.bool false)]) []).1.render
        = "<input >" := by
  refine ⟨?_, by decide, by decide⟩
  unfold attributeToString
  rw [h]

/-- Claim C4, witness: the per-attribute serializer at a concrete true
boolean binding. -/
theorem C4_witness :
    attributeToString [("disabled", AttributeValue.bool true)] "disabled"
      = (if true then toKebabCase "disabled" else "") :=
  (C4_claim [("disabled", AttributeValue.bool true)] "disabled" true (by decide)).1


/-- Claim C1, counterexample: with `dangerousInnerHtml` bound to the empty
string the key is present in the attributes mapping, yet the escape hatch
does not fire — the supplied child is kept, the key is not deleted, and it
appears in the serialized attribute string as `dangerous-inner-html=""`. -/
theorem C1_counterexample :
    (createElement (Sum.inl "div") (some [("dangerousInnerHtml", AttributeValue.str "")])
        [RawContent.prim "x"]).2
      = some [("dangerousInnerHtml", AttributeValue.str "")]
    ∧ (createElement (Sum.inl "div") (some [("dangerousInnerHtml", AttributeValue.str "")])
        [RawContent.prim "x"]).1.getChildren = some [Content.str "x"]
    ∧ (createElement (Sum.inl "div") (some [("dangerousInnerHtml", AttributeValue.str "")])
        [RawContent.prim "x"]).1.render
      = "<div dangerous-inner-html=\"\">x</div>" := by
  refine ⟨by decide, rfl, by decide⟩

/-- Claim C1 (amended): for every call to `createElement` whose attributes
mapping binds `dangerousInnerHtml` to a truthy value, the entire children
argument list is discarded and replaced by a single `TextNode` wrapping the
stringified reserved value, that `TextNode` renders its contents verbatim
with no escaping, and the key is deleted from the attributes mapping so it
never appears among the serialized attribute names. -/
theorem C1_claim (name : String) (attrs : Attributes) (v : AttributeValue)
    (raw : List RawContent)
    (hmem : lookupAttr attrs "dangerousInnerHtml" = some v)
    (htruthy : truthy v = true) :
    createElement (Sum.inl name) (some attrs) raw
      = (RNode.renderNode (toKebabCase name)
            (some (deleteAttr attrs "dangerousInnerHtml"))
            [Content.node (RNode.textNode (jsToString v))],
         some (deleteAttr attrs "dangerousInnerHtml"))
    ∧ RNode.render (RNode.textNode (jsToString v)) = jsToString v
    ∧ "dangerousInnerHtml" ∉ (deleteAttr attrs "dangerousInnerHtml").map Prod.fst := by
  refine ⟨?_, rfl, deleteAttr_key_gone attrs _⟩
  unfold createElement
  simp [hmem, htruthy, flattenContents, flattenOne]

/-- Claim C1, witness: the hatch fires on a truthy value and the reserved
key is gone from the attributes object after the call. -/
theorem C1_witness :
    (createElement (Sum.inl "div")
        (some [("dangerousInnerHtml", AttributeValue.str "<b>x</b>")])
        [RawContent.prim "y"]).2
      = some (deleteAttr [("dangerousInnerHtml", AttributeValue.str "<b>x</b>")]
          "dangerousInnerHtml") :=
  congrArg Prod.snd
    (C1_claim "div" [("dangerousInnerHtml", AttributeValue.str "<b>x</b>")]
      (AttributeValue.str "<b>x</b>") [RawContent.prim "y"] (by decide) (by decide)).1

/-- Claim C5: binding `dangerousInnerHtml` to a falsy value leaves the
builder on the ordinary path — the supplied children are flattened
normally, the key stays in the attributes mapping, and it serializes as an
ordinary attribute (`dangerous-inner-html=""` for the empty string). -/
theorem C5_claim (name : String) (attrs : Attributes) (v : AttributeValue)
    (raw : List RawContent)
    (hmem : lookupAttr attrs "dangerousInnerHtml" = some v)
    (hfalsy : truthy v = false) :
    createElement (Sum.inl name) (some attrs) raw
      = (RNode.renderNode (toKebabCase name) (some attrs) (flattenContents raw), some attrs)
    ∧ attributeToString [("dangerousInnerHtml", AttributeValue.str "")] "dangerousInnerHtml"
        = "dangerous-inner-html=\"\""
    ∧ (createElement (Sum.inl "div") (some [("dangerousInnerHtml", AttributeValue.str "")])
          [RawContent.prim "x"]).1.render
        = "<div dangerous-inner-html=\"\">x</div>" := by
  refine ⟨?_, by decide, by decide⟩
  unfold createElement
  simp [hmem, hfalsy]

/-- Claim C5, witness: the attributes object is unchanged after a call with
a falsy `dangerousInnerHtml` binding. -/
theorem C5_witness :
    (createElement (Sum.inl "div") (some [("dangerousInnerHtml", AttributeValue.str "")])
        [RawContent.prim "x"]).2
      = some [("dangerousInnerHtml", AttributeValue.str "")] :=
  congrArg Prod.snd
    (C5_claim "div" [("dangerousInnerHtml", AttributeValue.str "")]
      (AttributeValue.str "") [RawContent.prim "x"] (by decide) (by decide)).1

/-- Claim C9: when the name is a custom handler and the escape hatch does
not fire, the handler is invoked on exactly the given attributes and the
flattened children, and its return value is the result of `createElement`,
unwrapped and unaltered. -/
theorem C9_claim (handler : CustomElementHandler) (attributes : Option Attributes)
    (raw : List RawContent) (h : hatchActive attributes = false) :
    createElement (Sum.inr handler) attributes raw
      = (handler attributes (flattenContents raw), attributes) := by
  cases attributes with
  | none => rfl
  | some attrs =>
    cases hl : lookupAttr attrs "dangerousInnerHtml" with
    | none =>
      unfold createElement
      simp [hl]
    | some v =>
      have ht : truthy v = false := by
        unfold hatchActive at h
        simpa [hl] using h
      unfold createElement
      simp [hl, ht]

/-- Claim C9, witness: a concrete handler receives the attributes and the
flattened children and its return value comes back untouched. -/
theorem C9_witness :
    createElement (Sum.inr (fun _ _ => RNode.textNode "hi")) none [RawContent.prim "a"]
      = (RNode.textNode "hi", none) :=
  C9_claim (fun _ _ => RNode.textNode "hi") none [RawContent.prim "a"] (by decide)

/-- Claim C10: on the string-name path the attribute map after the call is
either the original one or the original with exactly the
`dangerousInnerHtml` binding removed; the value stored under every other
key is unchanged; and the constructed `RenderNode` holds exactly the
post-call attributes object. -/
theorem C10_claim (name : String) (attrs : Attributes) (raw : List RawContent)
    (k : String) (hk : k ≠ "dangerousInnerHtml") :
    ((createElement (Sum.inl name) (some attrs) raw).2 = some attrs
      ∨ (createElement (Sum.inl name) (some attrs) raw).2
          = some (deleteAttr attrs "dangerousInnerHtml"))
    ∧ (∀ a, (createElement (Sum.inl name) (some attrs) raw).2 = some a →
        lookupAttr a k = lookupAttr attrs k)
    ∧ (createElement (Sum.inl name) (some attrs) raw).1.getAttributes
        = some (createElement (Sum.inl name) (some attrs) raw).2 := by
  unfold createElement
  cases hl : lookupAttr attrs "dangerousInnerHtml" with
  | none =>
    refine ⟨Or.inl (by simp [hl]), ?_, by simp [hl, RNode.getAttributes]⟩
    intro a ha
    simp [hl] at ha
    rw [← ha]
  | some v =>
    by_cases ht : truthy v
    · refine ⟨Or.inr (by simp [hl, ht]), ?_, by simp [hl, ht, RNode.getAttributes]⟩
      intro a ha
      simp [hl, ht] at ha
      rw [← ha]
      exact lookupAttr_deleteAttr attrs _ k hk
    · refine ⟨Or.inl (by simp [hl, ht]), ?_, by simp [hl, ht, RNode.getAttributes]⟩
      intro a ha
      simp [hl, ht] at ha
      rw [← ha]

/-- Claim C10, witness: a key other than the reserved one keeps its value
across a call that fires the escape hatch. -/
theorem C10_witness :
    lookupAttr [("id", AttributeValue.str "5")] "id"
      = lookupAttr [("id", AttributeValue.str "5"),
          ("dangerousInnerHtml", AttributeValue.str "<b>")] "id" :=
  (C10_claim "div"
    [("id", AttributeValue.str "5"), ("dangerousInnerHtml", AttributeValue.str "<b>")]
    [] "id" (by decide)).2.1
    [("id", AttributeValue.str "5")] (by decide)

end SafeTypedHtml
